import Mathlib

/-!
Shallow embedding of the load-test CLI (src/main.go) and proofs about it.

The program issues a configured number of HTTP GET requests against a URL
from a pool of concurrent workers and aggregates the outcomes into a report.
We model:
  * the data types Config, Result, Report (main.go lines 14-31), with the
    Go map[int]int of status-code counts embedded as an association list;
  * parseFlags (lines 33-55) over raw flag values;
  * the per-ticket body of worker (lines 57-90), parametrised by an abstract
    client behaviour (request-construction failure, transport error, or a
    response carrying an arbitrary status code and elapsed duration);
  * the aggregation loop of runLoadTest (lines 126-146) including the
    progress messages it prints;
  * the job-producing goroutine and its buffered channel (lines 106, 119-124);
  * the shutdown ordering of runLoadTest (cancel, wait, close; lines 148-152)
    as a labelled transition system over interleavings of the producer, the
    workers and the main goroutine, in the Sched namespace.
-/

namespace StressTest

/-- Config (main.go lines 14-18). Go int is embedded as Int. -/
structure Config where
  url : String
  requests : Int
  concurrency : Int
deriving DecidableEq, Repr

/-- Result of one request (main.go lines 20-24). The Go error field is
modelled by a Bool recording whether an error value is present; Duration
is modelled as a Nat. A Go struct literal that omits StatusCode leaves it
at the zero value 0, which the embedding reproduces explicitly. -/
structure Result where
  statusCode : Int
  duration : Nat
  error : Bool
deriving DecidableEq, Repr

/-- Report (main.go lines 26-31). The Go map[int]int StatusCodes is
embedded as an association list from status code to count. -/
structure Report where
  totalTime : Nat
  totalRequests : Nat
  successRequests : Nat
  statusCodes : List (Int × Nat)
deriving DecidableEq, Repr

/-- Go map increment m[k]++ : a missing key counts as 0, so it becomes 1.
The first entry for k (there is never more than one) is incremented. -/
def mapIncr : List (Int × Nat) → Int → List (Int × Nat)
  | [], k => [(k, 1)]
  | p :: rest, k => if p.1 = k then (p.1, p.2 + 1) :: rest else p :: mapIncr rest k

/-- Go map read m[k] with default 0 for a missing key. -/
def mapGetD : List (Int × Nat) → Int → Nat
  | [], _ => 0
  | p :: rest, k => if p.1 = k then p.2 else mapGetD rest k

/-- Sum of all values of the status-code map. -/
def sumValues : List (Int × Nat) → Nat
  | [] => 0
  | p :: rest => p.2 + sumValues rest

/-- Sum of the values of the status-code map over keys different from k. -/
def sumValuesNe : List (Int × Nat) → Int → Nat
  | [], _ => 0
  | p :: rest, k => (if p.1 = k then 0 else p.2) + sumValuesNe rest k

/-- Abstract behaviour of the HTTP client for one ticket: request
construction fails (main.go line 69), client.Do fails (line 77), or a
response is obtained (line 83) with some status code. Each constructor
carries the elapsed duration observed by the worker for that ticket. -/
inductive ClientBehavior where
  | buildError (dur : Nat)
  | clientError (dur : Nat)
  | response (code : Int) (dur : Nat)
deriving DecidableEq, Repr

/-- The body of worker for one claimed ticket (main.go lines 67-86): each
of the three paths emits exactly one Result. The two error paths build
Result with the Error field set and StatusCode left at its zero value 0;
the response path copies resp.StatusCode and carries no error. -/
def worker : ClientBehavior → Result
  | .buildError d => { statusCode := 0, duration := d, error := true }
  | .clientError d => { statusCode := 0, duration := d, error := true }
  | .response c d => { statusCode := c, duration := d, error := false }

/-- A worker pool run over a list of tickets: each ticket is consumed by
exactly one worker and produces exactly one Result via worker. The
behaviour map assigns each ticket index the client outcome for it. -/
def workerRun (behav : Nat → ClientBehavior) (tickets : List Nat) : List Result :=
  tickets.map (fun t => worker (behav t))

/-- The report as initialised in runLoadTest (main.go lines 126-128):
zero counters and an empty status-code map. -/
def initReport : Report :=
  { totalTime := 0, totalRequests := 0, successRequests := 0, statusCodes := [] }

/-- One iteration of the aggregation loop of runLoadTest
(main.go lines 132-141). -/
def aggStep (report : Report) (result : Result) : Report :=
  let report1 := { report with totalRequests := report.totalRequests + 1 }
  if result.error then
    { report1 with statusCodes := mapIncr report1.statusCodes 0 }
  else
    let report2 := { report1 with statusCodes := mapIncr report1.statusCodes result.statusCode }
    if result.statusCode = 200 then
      { report2 with successRequests := report2.successRequests + 1 }
    else
      report2

/-- The aggregation loop run over a whole sequence of collected results,
starting from the freshly initialised report. -/
def aggregate (results : List Result) : Report :=
  results.foldl aggStep initReport

/-- The progress message of main.go line 144 (without the trailing
newline of Printf). -/
def progressLine (x y : Nat) : String :=
  "Progress: " ++ toString x ++ "/" ++ toString y ++ " requests completed"

/-- The aggregation loop with its printed progress messages
(main.go lines 130-146): i is the zero-based loop counter, and after
processing result i the message for i+1 completions is printed exactly
when (i+1) % 100 == 0 or i+1 equals the configured total R. -/
def aggLoopAux (R : Nat) : Nat → Report → List Result → Report × List String
  | _, rep, [] => (rep, [])
  | i, rep, res :: rest =>
    let out := aggLoopAux R (i + 1) (aggStep rep res) rest
    if (i + 1) % 100 == 0 || i + 1 == R then
      (out.1, progressLine (i + 1) R :: out.2)
    else
      out

/-- The aggregation loop started at i = 0 with the initial report. -/
def aggLoop (R : Nat) (results : List Result) : Report × List String :=
  aggLoopAux R 0 initReport results

/-- Functional model of runLoadTest (main.go lines 92-155) for a given
client behaviour: the producer enqueues tickets 0..Requests-1, the pool
turns each ticket into one Result, and the aggregation loop folds the
Results into the report. Wall-clock TotalTime is not modelled. -/
def runLoadTest (cfg : Config) (behav : Nat → ClientBehavior) : Report :=
  aggregate (workerRun behav (List.range cfg.requests.toNat))

/-- Validity of a configuration as the claims use it: non-empty URL and
positive request and concurrency counts. -/
def validConfig (cfg : Config) : Prop :=
  cfg.url ≠ "" ∧ 0 < cfg.requests ∧ 0 < cfg.concurrency

instance (cfg : Config) : Decidable (validConfig cfg) := by
  unfold validConfig
  infer_instance

/-- The raw values carried by the three command-line flags; the flag
package defaults them to "" and 0 when absent (main.go lines 36-38). -/
structure RawFlags where
  url : String
  requests : Int
  concurrency : Int
deriving DecidableEq, Repr

/-- parseFlags (main.go lines 33-55): validation order is URL, then
Requests, then Concurrency; afterwards Concurrency is clamped down to
Requests when it exceeds it. -/
def parseFlags (raw : RawFlags) : Except String Config :=
  if raw.url = "" then
    .error "parametro --url e obrigatorio"
  else if raw.requests ≤ 0 then
    .error "parametro --requests deve ser maior que 0"
  else if raw.concurrency ≤ 0 then
    .error "parametro --concurrency deve ser maior que 0"
  else if raw.concurrency > raw.requests then
    .ok { url := raw.url, requests := raw.requests, concurrency := raw.requests }
  else
    .ok { url := raw.url, requests := raw.requests, concurrency := raw.concurrency }

/-- Whether parseFlags reported a configuration error. -/
def isError : Except String Config → Bool
  | .error _ => true
  | .ok _ => false

/-- main (main.go lines 184-195): on a parse error the process exits
before any run starts (no workers, no tickets, no HTTP calls), modelled
as none; otherwise the run happens and its report is produced. -/
def mainModel (raw : RawFlags) (behav : Nat → ClientBehavior) : Option Report :=
  match parseFlags raw with
  | .error _ => none
  | .ok cfg => some (runLoadTest cfg behav)

/-- A Go buffered channel of ticket indices: its fixed capacity, the
values currently buffered in FIFO order, and whether it was closed. -/
structure Chan where
  capacity : Nat
  buffer : List Nat
  closed : Bool
deriving DecidableEq, Repr

/-- Sending a value on a channel appends it to the buffer. -/
def chanSend (ch : Chan) (x : Nat) : Chan :=
  { ch with buffer := ch.buffer ++ [x] }

/-- Closing a channel. -/
def chanClose (ch : Chan) : Chan :=
  { ch with closed := true }

/-- make(chan int, config.Requests) (main.go line 106): an open, empty
channel whose buffer capacity is the configured request count. -/
def mkJobsChan (R : Nat) : Chan :=
  { capacity := R, buffer := [], closed := false }

/-- The job-source goroutine (main.go lines 119-124): sends the ticket
indices 0, 1, ..., R-1 in order, then closes the channel (the deferred
close runs after the loop). -/
def jobSource (R : Nat) (ch : Chan) : Chan :=
  chanClose ((List.range R).foldl chanSend ch)

/-- Whether a client behaviour, when it delivers a response at all,
delivers one with a nonzero status code. Both error constructors
trivially qualify. -/
def responseNonzero : ClientBehavior → Bool
  | .response c _ => c != 0
  | _ => true

namespace Sched

/-- State of one worker goroutine: parked at the select (idle), holding a
claimed ticket and yet to send its Result (busy), or returned (done). -/
inductive WState where
  | idle
  | busy
  | done
deriving DecidableEq, Repr

/-- Global state of one runLoadTest execution: the producer goroutine
(produced, jobs buffer, jobs closed), the results channel (number of
buffered Results, closed flag), the main goroutine (collected count,
cancellation flag), and the worker pool. -/
structure SysState where
  produced : Nat
  jobs : List Nat
  jobsClosed : Bool
  resultsBuf : Nat
  resultsClosed : Bool
  collected : Nat
  cancelled : Bool
  workers : List WState
deriving DecidableEq, Repr

/-- Labels of the atomic steps of the interleaving semantics. -/
inductive Act where
  | produce
  | closeJobs
  | claim (w : Nat)
  | send (w : Nat)
  | exitCancel (w : Nat)
  | exitDrained (w : Nat)
  | collect
  | cancel
  | closeResults
deriving DecidableEq, Repr

/-- The interleaving semantics of runLoadTest with R requests and C
workers. Producer steps mirror main.go lines 119-124; worker steps mirror
the select of lines 58-65 (claiming is possible whether or not
cancellation fired, matching Go select nondeterminism, and a worker that
claimed a ticket always performs its one send, lines 67-86); main-thread
steps mirror the drain loop (lines 130-146) and the shutdown sequence
cancel, wg.Wait, close(results) of lines 150-152: cancellation only once
all R results are collected, closing only once every worker returned. -/
inductive Step (R C : Nat) : SysState → Act → SysState → Prop where
  | produce (s : SysState) (h1 : s.jobsClosed = false) (h2 : s.produced < R) :
      Step R C s .produce
        { s with jobs := s.jobs ++ [s.produced], produced := s.produced + 1 }
  | closeJobs (s : SysState) (h1 : s.jobsClosed = false) (h2 : s.produced = R) :
      Step R C s .closeJobs { s with jobsClosed := true }
  | claim (s : SysState) (w j : Nat) (rest : List Nat)
      (hw : s.workers[w]? = some .idle) (hj : s.jobs = j :: rest) :
      Step R C s (.claim w) { s with jobs := rest, workers := s.workers.set w .busy }
  | send (s : SysState) (w : Nat)
      (hw : s.workers[w]? = some .busy) (hcap : s.resultsBuf < R) :
      Step R C s (.send w)
        { s with resultsBuf := s.resultsBuf + 1, workers := s.workers.set w .idle }
  | exitCancel (s : SysState) (w : Nat)
      (hw : s.workers[w]? = some .idle) (hc : s.cancelled = true) :
      Step R C s (.exitCancel w) { s with workers := s.workers.set w .done }
  | exitDrained (s : SysState) (w : Nat)
      (hw : s.workers[w]? = some .idle) (hc : s.jobsClosed = true) (hj : s.jobs = []) :
      Step R C s (.exitDrained w) { s with workers := s.workers.set w .done }
  | collect (s : SysState) (h1 : s.collected < R) (h2 : 0 < s.resultsBuf) :
      Step R C s .collect
        { s with collected := s.collected + 1, resultsBuf := s.resultsBuf - 1 }
  | cancel (s : SysState) (h1 : s.collected = R) (h2 : s.cancelled = false) :
      Step R C s .cancel { s with cancelled := true }
  | closeResults (s : SysState) (h1 : s.cancelled = true)
      (h2 : ∀ w ∈ s.workers, w = WState.done) (h3 : s.resultsClosed = false) :
      Step R C s .closeResults { s with resultsClosed := true }

/-- The state in which runLoadTest starts its goroutines: nothing
produced or collected, all channels open, C idle workers. -/
def initState (R C : Nat) : SysState :=
  { produced := 0, jobs := [], jobsClosed := false, resultsBuf := 0,
    resultsClosed := false, collected := 0, cancelled := false,
    workers := List.replicate C WState.idle }

/-- States reachable from the initial state by interleaved steps. -/
inductive Reaches (R C : Nat) : SysState → Prop where
  | init : Reaches R C (initState R C)
  | step {s : SysState} {a : Act} {t : SysState} :
      Reaches R C s → Step R C s a t → Reaches R C t

/-- No send on the results channel is possible from state s. -/
def noSendPossible (R C : Nat) (s : SysState) : Prop :=
  ∀ (w : Nat) (t : SysState), ¬ Step R C s (.send w) t

/-- The final state of the run with R = 1 and C = 1: the single ticket
was produced, claimed and answered, the result was collected, the
context was cancelled, the worker returned, and the results channel was
closed. -/
def finalStateOne : SysState :=
  { produced := 1, jobs := [], jobsClosed := true, resultsBuf := 0,
    resultsClosed := true, collected := 1, cancelled := true,
    workers := [WState.done] }

end Sched

/-- The counter invariant of one report, as maintained by the
aggregation loop. -/
def reportInv (rep : Report) : Prop :=
  sumValues rep.statusCodes = rep.totalRequests
  ∧ rep.successRequests = mapGetD rep.statusCodes 200
  ∧ rep.totalRequests = rep.successRequests + sumValuesNe rep.statusCodes 200

theorem sumValues_mapIncr (m : List (Int × Nat)) (k : Int) :
    sumValues (mapIncr m k) = sumValues m + 1 := by
  induction m with
  | nil => simp [mapIncr, sumValues]
  | cons p rest ih =>
    by_cases h : p.1 = k <;> simp [mapIncr, sumValues, h, ih] <;> omega

theorem mapGetD_mapIncr_self (m : List (Int × Nat)) (k : Int) :
    mapGetD (mapIncr m k) k = mapGetD m k + 1 := by
  induction m with
  | nil => simp [mapIncr, mapGetD]
  | cons p rest ih =>
    by_cases h : p.1 = k <;> simp [mapIncr, mapGetD, h, ih]

theorem mapGetD_mapIncr_ne (m : List (Int × Nat)) (k j : Int) (hkj : k ≠ j) :
    mapGetD (mapIncr m k) j = mapGetD m j := by
  have hjk : ¬ (j = k) := fun e => hkj e.symm
  induction m with
  | nil => simp [mapIncr, mapGetD, hkj]
  | cons p rest ih =>
    by_cases h : p.1 = k
    · have hpj : ¬ p.1 = j := by rw [h]; exact hkj
      simp [mapIncr, mapGetD, h, hpj, hkj]
    · by_cases h2 : p.1 = j <;> simp [mapIncr, mapGetD, h, h2, hjk, ih]

theorem sumValuesNe_mapIncr_self (m : List (Int × Nat)) (k : Int) :
    sumValuesNe (mapIncr m k) k = sumValuesNe m k := by
  induction m with
  | nil => simp [mapIncr, sumValuesNe]
  | cons p rest ih =>
    by_cases h : p.1 = k <;> simp [mapIncr, sumValuesNe, h, ih]

theorem sumValuesNe_mapIncr_ne (m : List (Int × Nat)) (k j : Int) (hkj : k ≠ j) :
    sumValuesNe (mapIncr m k) j = sumValuesNe m j + 1 := by
  have hjk : ¬ (j = k) := fun e => hkj e.symm
  induction m with
  | nil => simp [mapIncr, sumValuesNe, hkj]
  | cons p rest ih =>
    by_cases h : p.1 = k
    · have hpj : ¬ p.1 = j := by rw [h]; exact hkj
      simp [mapIncr, sumValuesNe, h, hpj, hkj, hjk]
      omega
    · by_cases h2 : p.1 = j <;> simp [mapIncr, sumValuesNe, h, h2, hjk, ih] <;> omega

theorem reportInv_aggStep {rep : Report} (res : Result) (h : reportInv rep) :
    reportInv (aggStep rep res) := by
  obtain ⟨h1, h2, h3⟩ := h
  by_cases he : res.error = true
  · have ht : (aggStep rep res).totalRequests = rep.totalRequests + 1 := by
      simp [aggStep, he]
    have hs : (aggStep rep res).statusCodes = mapIncr rep.statusCodes 0 := by
      simp [aggStep, he]
    have hq : (aggStep rep res).successRequests = rep.successRequests := by
      simp [aggStep, he]
    refine ⟨?_, ?_, ?_⟩
    · rw [hs, ht, sumValues_mapIncr, h1]
    · rw [hs, hq, mapGetD_mapIncr_ne _ _ _ (by decide), h2]
    · rw [hs, ht, hq, sumValuesNe_mapIncr_ne _ _ _ (by decide)]
      omega
  · have he2 : res.error = false := by revert he; cases res.error <;> simp
    by_cases hc : res.statusCode = 200
    · have ht : (aggStep rep res).totalRequests = rep.totalRequests + 1 := by
        simp [aggStep, he2, hc]
      have hs : (aggStep rep res).statusCodes = mapIncr rep.statusCodes 200 := by
        simp [aggStep, he2, hc]
      have hq : (aggStep rep res).successRequests = rep.successRequests + 1 := by
        simp [aggStep, he2, hc]
      refine ⟨?_, ?_, ?_⟩
      · rw [hs, ht, sumValues_mapIncr, h1]
      · rw [hs, hq, mapGetD_mapIncr_self, h2]
      · rw [hs, ht, hq, sumValuesNe_mapIncr_self]
        omega
    · have ht : (aggStep rep res).totalRequests = rep.totalRequests + 1 := by
        simp [aggStep, he2, hc]
      have hs : (aggStep rep res).statusCodes = mapIncr rep.statusCodes res.statusCode := by
        simp [aggStep, he2, hc]
      have hq : (aggStep rep res).successRequests = rep.successRequests := by
        simp [aggStep, he2, hc]
      refine ⟨?_, ?_, ?_⟩
      · rw [hs, ht, sumValues_mapIncr, h1]
      · rw [hs, hq, mapGetD_mapIncr_ne _ _ _ hc, h2]
      · rw [hs, ht, hq, sumValuesNe_mapIncr_ne _ _ _ hc]
        omega

theorem reportInv_foldl (rep : Report) (results : List Result) (h : reportInv rep) :
    reportInv (results.foldl aggStep rep) := by
  induction results generalizing rep with
  | nil => exact h
  | cons res rest ih => exact ih (aggStep rep res) (reportInv_aggStep res h)

/-- C2: after the aggregation loop processes any sequence of results
(hence also at every intermediate iteration, each intermediate state
being the fold over a prefix), the report satisfies: the sum of the
status-code map values equals TotalRequests; SuccessRequests equals the
count stored for code 200 (0 when absent); and TotalRequests equals
SuccessRequests plus the sum of the counts of the non-200 codes. -/
theorem c2_report_invariant (results : List Result) :
    sumValues (aggregate results).statusCodes = (aggregate results).totalRequests
    ∧ (aggregate results).successRequests = mapGetD (aggregate results).statusCodes 200
    ∧ (aggregate results).totalRequests
        = (aggregate results).successRequests + sumValuesNe (aggregate results).statusCodes 200 :=
  reportInv_foldl initReport results ⟨rfl, rfl, rfl⟩

/-- C3: each iteration of the aggregation loop increments TotalRequests,
leaves TotalTime unchanged, increments the status-code map exactly at
key 0 when the result carries an error and at key StatusCode otherwise,
and increments SuccessRequests exactly when the result carries no error
and its status code is 200. -/
theorem c3_aggregation_step (rep : Report) (res : Result) :
    (aggStep rep res).totalRequests = rep.totalRequests + 1
    ∧ (aggStep rep res).totalTime = rep.totalTime
    ∧ (aggStep rep res).statusCodes
        = mapIncr rep.statusCodes (if res.error then 0 else res.statusCode)
    ∧ (aggStep rep res).successRequests
        = rep.successRequests
          + (if res.error = false ∧ res.statusCode = 200 then 1 else 0) := by
  by_cases he : res.error = true
  · simp [aggStep, he]
  · have he2 : res.error = false := by revert he; cases res.error <;> simp
    by_cases hc : res.statusCode = 200 <;> simp [aggStep, he2, hc]

/-- C10: in the aggregation loop the Error field takes precedence over
StatusCode: a result carrying an error increments the count for key 0
and leaves SuccessRequests unchanged, whatever its StatusCode field
holds (even 200). -/
theorem c10_error_precedence (rep : Report) (res : Result) (h : res.error = true) :
    (aggStep rep res).successRequests = rep.successRequests
    ∧ (aggStep rep res).statusCodes = mapIncr rep.statusCodes 0
    ∧ mapGetD (aggStep rep res).statusCodes 0 = mapGetD rep.statusCodes 0 + 1 := by
  refine ⟨?_, ?_, ?_⟩ <;> simp [aggStep, h, mapGetD_mapIncr_self]

theorem aggStep_totalRequests (rep : Report) (res : Result) :
    (aggStep rep res).totalRequests = rep.totalRequests + 1 := by
  cases he : res.error <;> by_cases hc : res.statusCode = 200 <;> simp [aggStep, he, hc]

theorem foldl_aggStep_totalRequests (rep : Report) (results : List Result) :
    (results.foldl aggStep rep).totalRequests = rep.totalRequests + results.length := by
  induction results generalizing rep with
  | nil => simp
  | cons res rest ih =>
    rw [List.foldl_cons, ih, aggStep_totalRequests]
    simp only [List.length_cons]
    omega

/-- C1: for a valid configuration, every ticket produces exactly one
Result (the worker body emits one Result on each of its three paths), the
aggregation loop consumes exactly Requests results, and the returned
report has TotalRequests equal to config.Requests. -/
theorem c1_collects_exactly_requests (cfg : Config) (behav : Nat → ClientBehavior)
    (h : validConfig cfg) :
    (workerRun behav (List.range cfg.requests.toNat)).length = cfg.requests.toNat
    ∧ ((runLoadTest cfg behav).totalRequests : Int) = cfg.requests := by
  constructor
  · simp [workerRun]
  · have htot : (runLoadTest cfg behav).totalRequests = cfg.requests.toNat := by
      unfold runLoadTest aggregate
      rw [foldl_aggStep_totalRequests]
      simp [workerRun, initReport]
    rw [htot]
    exact Int.toNat_of_nonneg (le_of_lt h.2.1)

/-- Witness for C1 at the configuration with URL "http://localhost",
3 requests and concurrency 2, under a client that always answers 200. -/
theorem c1_witness :
    (workerRun (fun _ => ClientBehavior.response 200 1)
        (List.range ((3 : Int)).toNat)).length = ((3 : Int)).toNat
    ∧ ((runLoadTest ⟨"http://localhost", 3, 2⟩
        (fun _ => ClientBehavior.response 200 1)).totalRequests : Int) = 3 :=
  c1_collects_exactly_requests ⟨"http://localhost", 3, 2⟩
    (fun _ => ClientBehavior.response 200 1) (by decide)

/-- Counterexample to C4 as stated: if the client delivers a response
whose status code is 0, the worker emits a Result with no error present
and StatusCode 0, so the biconditional "Error present iff
StatusCode == 0" fails in the right-to-left direction. -/
theorem c4_counterexample :
    ¬ ((worker (ClientBehavior.response 0 1)).error = true
        ↔ (worker (ClientBehavior.response 0 1)).statusCode = 0) := by
  decide

/-- C4 (amended): for every client behaviour whose delivered response, if
any, carries a nonzero status code, the worker's Result has Error present
iff StatusCode == 0. In particular Error present always implies
StatusCode == 0, and the biconditional can only fail when the client
hands back a response whose own status code is 0. -/
theorem c4_error_iff_status_zero (b : ClientBehavior) (h : responseNonzero b = true) :
    (worker b).error = true ↔ (worker b).statusCode = 0 := by
  cases b with
  | buildError d => simp [worker]
  | clientError d => simp [worker]
  | response c d =>
    simp [worker, responseNonzero] at h ⊢
    exact h

/-- Witness for C4 (amended) at a transport-error behaviour. -/
theorem c4_witness :
    responseNonzero (ClientBehavior.clientError 7) = true
    ∧ ((worker (ClientBehavior.clientError 7)).error = true
        ↔ (worker (ClientBehavior.clientError 7)).statusCode = 0) :=
  ⟨rfl, c4_error_iff_status_zero (ClientBehavior.clientError 7) rfl⟩

/-- C5: parseFlags reports a configuration error exactly when the URL is
empty, Requests is non-positive, or Concurrency is non-positive; on an
error main never runs the load test (no report is produced), and on
success a configuration value is returned. -/
theorem c5_parse_flags (raw : RawFlags) :
    (isError (parseFlags raw) = true
        ↔ (raw.url = "" ∨ raw.requests ≤ 0 ∨ raw.concurrency ≤ 0))
    ∧ (∀ behav : Nat → ClientBehavior,
        isError (parseFlags raw) = true → mainModel raw behav = none)
    ∧ (isError (parseFlags raw) = false
        → ∃ cfg : Config, parseFlags raw = Except.ok cfg) := by
  refine ⟨?_, ?_, ?_⟩
  · unfold parseFlags
    split_ifs with h1 h2 h3 h4 <;> simp_all [isError]
  · intro behav herr
    cases hp : parseFlags raw with
    | error e => simp [mainModel, hp]
    | ok cfg => rw [hp] at herr; simp [isError] at herr
  · intro hok
    cases hp : parseFlags raw with
    | error e => rw [hp] at hok; simp [isError] at hok
    | ok cfg => exact ⟨cfg, rfl⟩

/-- Witness for C5: with an empty URL the parse fails and main produces
no report. -/
theorem c5_witness :
    mainModel ⟨"", 5, 5⟩ (fun _ => ClientBehavior.response 200 1) = none
    ∧ isError (parseFlags ⟨"", 5, 5⟩) = true :=
  ⟨(c5_parse_flags ⟨"", 5, 5⟩).2.1 (fun _ => ClientBehavior.response 200 1) rfl,
   (c5_parse_flags ⟨"", 5, 5⟩).1.mpr (Or.inl rfl)⟩

/-- C6: every accepted configuration has Concurrency equal to (hence at
most) the minimum of the configured Concurrency and Requests, keeps
Requests unchanged, and the pool starts exactly that many workers. -/
theorem c6_concurrency_clamp (raw : RawFlags) (cfg : Config)
    (h : parseFlags raw = Except.ok cfg) :
    cfg.concurrency = min raw.concurrency raw.requests
    ∧ cfg.concurrency ≤ min raw.concurrency raw.requests
    ∧ cfg.requests = raw.requests
    ∧ (Sched.initState cfg.requests.toNat cfg.concurrency.toNat).workers.length
        = cfg.concurrency.toNat := by
  unfold parseFlags at h
  split_ifs at h with h1 h2 h3 h4
  · rw [Except.ok.injEq] at h
    subst h
    have hm : min raw.concurrency raw.requests = raw.requests :=
      min_eq_right (le_of_lt h4)
    exact ⟨hm.symm, le_of_eq hm.symm, rfl, by simp [Sched.initState]⟩
  · rw [Except.ok.injEq] at h
    subst h
    have hm : min raw.concurrency raw.requests = raw.concurrency :=
      min_eq_left (le_of_not_lt h4)
    exact ⟨hm.symm, le_of_eq hm.symm, rfl, by simp [Sched.initState]⟩

/-- Witness for C6 at raw flags Requests=1, Concurrency=5: the effective
concurrency is clamped to 1. -/
theorem c6_witness :
    (Config.mk "http://x" 1 1).concurrency = min (5 : Int) 1
    ∧ (Config.mk "http://x" 1 1).concurrency ≤ min (5 : Int) 1
    ∧ (Config.mk "http://x" 1 1).requests = (1 : Int)
    ∧ (Sched.initState (Config.mk "http://x" 1 1).requests.toNat
        (Config.mk "http://x" 1 1).concurrency.toNat).workers.length
        = (Config.mk "http://x" 1 1).concurrency.toNat :=
  c6_concurrency_clamp ⟨"http://x", 1, 5⟩ ⟨"http://x", 1, 1⟩ rfl

theorem foldl_chanSend (l : List Nat) (ch : Chan) :
    l.foldl chanSend ch = { ch with buffer := ch.buffer ++ l } := by
  induction l generalizing ch with
  | nil => simp
  | cons x xs ih =>
    rw [List.foldl_cons, ih]
    simp [chanSend]

/-- C7: for every positive request count R, the job source fills the jobs
channel with exactly the tickets 0, 1, ..., R-1 in increasing order
(the buffer is the list range R), the channel's capacity R is large
enough to hold all of them (so the producer never blocks), and the
channel is closed after the last ticket. -/
theorem c7_job_source (R : Nat) (h : 0 < R) :
    (jobSource R (mkJobsChan R)).buffer = List.range R
    ∧ (jobSource R (mkJobsChan R)).buffer.length = R
    ∧ (jobSource R (mkJobsChan R)).buffer.Pairwise (· < ·)
    ∧ (jobSource R (mkJobsChan R)).closed = true
    ∧ (jobSource R (mkJobsChan R)).buffer.length ≤ (mkJobsChan R).capacity := by
  have hb : jobSource R (mkJobsChan R)
      = { capacity := R, buffer := List.range R, closed := true } := by
    unfold jobSource mkJobsChan chanClose
    rw [foldl_chanSend]
    simp
  rw [hb]
  refine ⟨rfl, by simp, ?_, rfl, by simp [mkJobsChan]⟩
  exact List.pairwise_lt_range R

/-- Witness for C7 at R = 3. -/
theorem c7_witness :
    (jobSource 3 (mkJobsChan 3)).buffer = List.range 3
    ∧ (jobSource 3 (mkJobsChan 3)).buffer.length = 3
    ∧ (jobSource 3 (mkJobsChan 3)).buffer.Pairwise (· < ·)
    ∧ (jobSource 3 (mkJobsChan 3)).closed = true
    ∧ (jobSource 3 (mkJobsChan 3)).buffer.length ≤ (mkJobsChan 3).capacity :=
  c7_job_source 3 (by decide)

/-- Witness for C10 at a result with an error present and StatusCode 200:
it is counted as an error, not a success. -/
theorem c10_error_precedence_witness :
    (aggStep initReport ⟨200, 5, true⟩).successRequests = initReport.successRequests
    ∧ (aggStep initReport ⟨200, 5, true⟩).statusCodes = mapIncr initReport.statusCodes 0
    ∧ mapGetD (aggStep initReport ⟨200, 5, true⟩).statusCodes 0
        = mapGetD initReport.statusCodes 0 + 1 :=
  c10_error_precedence initReport ⟨200, 5, true⟩ rfl

theorem aggLoopAux_snd (R : Nat) (results : List Result) :
    ∀ (i : Nat) (rep : Report),
    (aggLoopAux R i rep results).2
      = ((List.range' (i + 1) results.length).filter
          (fun c => c % 100 == 0 || c == R)).map (fun c => progressLine c R) := by
  induction results with
  | nil => intro i rep; simp [aggLoopAux]
  | cons res rest ih =>
    intro i rep
    simp only [aggLoopAux, List.length_cons, List.range'_succ, List.filter_cons]
    cases hc : ((i + 1) % 100 == 0 || i + 1 == R) with
    | true => simp [hc, ih]
    | false => simp [hc, ih]

/-- C8: the progress messages printed by the aggregation loop over the R
collected results are exactly those for the completed counts c in 1..R
with c a multiple of 100 or c = R, each with the text
"Progress: c/R requests completed", and none other; in particular a
message is always printed on the final result. -/
theorem c8_progress (R : Nat) (results : List Result) (h : results.length = R) :
    (aggLoop R results).2
      = ((List.range' 1 R).filter (fun c => c % 100 == 0 || c == R)).map
          (fun c => progressLine c R)
    ∧ (0 < R → progressLine R R ∈ (aggLoop R results).2) := by
  have h1 : (aggLoop R results).2
      = ((List.range' 1 R).filter (fun c => c % 100 == 0 || c == R)).map
          (fun c => progressLine c R) := by
    unfold aggLoop
    rw [aggLoopAux_snd, h]
  refine ⟨h1, ?_⟩
  intro hR
  rw [h1]
  refine List.mem_map.mpr ⟨R, List.mem_filter.mpr ⟨?_, ?_⟩, rfl⟩
  · exact List.mem_range'_1.mpr ⟨hR, by omega⟩
  · simp

/-- Witness for C8 at R = 3 over three successful results: exactly one
message is printed, for the final (third) result. -/
theorem c8_witness :
    (aggLoop 3 (List.replicate 3 (Result.mk 200 1 false))).2
      = ((List.range' 1 3).filter (fun c => c % 100 == 0 || c == 3)).map
          (fun c => progressLine c 3)
    ∧ progressLine 3 3 ∈ (aggLoop 3 (List.replicate 3 (Result.mk 200 1 false))).2 := by
  have h := c8_progress 3 (List.replicate 3 (Result.mk 200 1 false)) rfl
  exact ⟨h.1, h.2 (by decide)⟩

theorem reaches_resultsClosed_all_done {R C : Nat} {s : Sched.SysState}
    (hr : Sched.Reaches R C s) :
    s.resultsClosed = true → ∀ w ∈ s.workers, w = Sched.WState.done := by
  induction hr with
  | init => intro hc; simp [Sched.initState] at hc
  | step hprev hstep ih =>
    intro hc
    cases hstep with
    | produce h1 h2 => exact ih hc
    | closeJobs h1 h2 => exact ih hc
    | claim w j rest hw hj =>
      have hmem : Sched.WState.idle ∈ _ := List.getElem?_mem hw
      have hdone := ih hc Sched.WState.idle hmem
      simp at hdone
    | send w hw hcap =>
      have hmem : Sched.WState.busy ∈ _ := List.getElem?_mem hw
      have hdone := ih hc Sched.WState.busy hmem
      simp at hdone
    | exitCancel w hw hcanc =>
      have hmem : Sched.WState.idle ∈ _ := List.getElem?_mem hw
      have hdone := ih hc Sched.WState.idle hmem
      simp at hdone
    | exitDrained w hw hclosed hj =>
      have hmem : Sched.WState.idle ∈ _ := List.getElem?_mem hw
      have hdone := ih hc Sched.WState.idle hmem
      simp at hdone
    | collect h1 h2 => exact ih hc
    | cancel h1 h2 => exact ih hc
    | closeResults h1 h2 h3 => exact h2

/-- C9: in every reachable state of the interleaving semantics in which
the results channel is closed, every worker has already returned, and no
send step on the results channel is possible; since workers only send
while holding a claimed ticket and the main goroutine closes the channel
only after cancellation and after every worker returned, no execution
performs a send after close(results). -/
theorem c9_no_send_after_close (R C : Nat) (s : Sched.SysState)
    (hr : Sched.Reaches R C s) (hc : s.resultsClosed = true) :
    (∀ w ∈ s.workers, w = Sched.WState.done) ∧ Sched.noSendPossible R C s := by
  have hall : ∀ w ∈ s.workers, w = Sched.WState.done :=
    reaches_resultsClosed_all_done hr hc
  refine ⟨hall, ?_⟩
  intro w t hstep
  cases hstep with
  | send _ hw hcap =>
    have hmem : Sched.WState.busy ∈ s.workers := List.getElem?_mem hw
    have hdone := hall Sched.WState.busy hmem
    simp at hdone

theorem reaches_finalStateOne : Sched.Reaches 1 1 Sched.finalStateOne := by
  have h0 : Sched.Reaches 1 1 (Sched.initState 1 1) := Sched.Reaches.init
  have h1 := Sched.Reaches.step h0 (Sched.Step.produce _ rfl (by decide))
  have h2 := Sched.Reaches.step h1 (Sched.Step.closeJobs _ rfl rfl)
  have h3 := Sched.Reaches.step h2 (Sched.Step.claim _ 0 0 [] rfl rfl)
  have h4 := Sched.Reaches.step h3 (Sched.Step.send _ 0 rfl (by decide))
  have h5 := Sched.Reaches.step h4 (Sched.Step.collect _ (by decide) (by decide))
  have h6 := Sched.Reaches.step h5 (Sched.Step.cancel _ rfl rfl)
  have h7 := Sched.Reaches.step h6 (Sched.Step.exitCancel _ 0 rfl rfl)
  have h8 := Sched.Reaches.step h7 (Sched.Step.closeResults _ rfl (by decide) rfl)
  exact h8

/-- Witness for C9: the terminal state of the complete run with one
request and one worker is reachable, has the results channel closed, and
admits no send step. -/
theorem c9_witness : Sched.noSendPossible 1 1 Sched.finalStateOne :=
  (c9_no_send_after_close 1 1 Sched.finalStateOne reaches_finalStateOne rfl).2

end StressTest
